import Mathlib

/-!
Verification development for the HR/SOP dual-agent retrieval-augmented
question-answering service (src/agents.py, src/ingest.py, src/api.py,
src/config.py).

Text is modelled as `List Char` so that the character-level operations of
the Python code (regex scanning, chunk splitting, overlap merging) become
structurally recursive Lean functions that the kernel can evaluate.
-/

namespace HRSop

/-- Text, modelled as a list of characters. -/
abbrev Str := List Char

/-- Metadata mapping of a document or chunk: ordered key/value pairs,
mirroring the Python dict built by `DocumentIngestor._extract_metadata`
and read with `dict.get(key, default)`. -/
abbrev Meta := List (Str × Str)

/-- First value bound to `k`, if any (Python `dict.get(k)`). -/
def metaLookup (m : Meta) (k : Str) : Option Str :=
  match m with
  | [] => none
  | (k', v) :: rest => if k' = k then some v else metaLookup rest k

/-- Python `dict.get(k, d)`. -/
def metaGetD (m : Meta) (k d : Str) : Str :=
  (metaLookup m k).getD d

/-- A langchain `Document`: page content plus metadata
(`langchain_core.documents.Document` as used throughout src/). -/
structure Doc where
  pageContent : Str
  metadata : Meta
  deriving DecidableEq, Repr

def documentIdKey : Str := "document_id".data
def titleKey : Str := "title".data
def docTypeKey : Str := "doc_type".data
def filenameKey : Str := "filename".data
def unknownStr : Str := "Unknown".data
def genericDocStr : Str := "Document".data

/-- The per-document citation record built by `BaseAgent._extract_sources`
(src/agents.py lines 86-91). -/
structure Citation where
  document_id : Str
  title : Str
  doc_type : Str
  filename : Str
  deriving DecidableEq, Repr

/-- The citation projection of one retrieved chunk
(src/agents.py lines 84-91). -/
def citeOf (d : Doc) : Citation :=
  { document_id := metaGetD d.metadata documentIdKey unknownStr
    title := metaGetD d.metadata titleKey unknownStr
    doc_type := metaGetD d.metadata docTypeKey genericDocStr
    filename := metaGetD d.metadata filenameKey unknownStr }

/-- `document_id` as `_extract_sources` computes it:
`doc.metadata.get('document_id', 'Unknown')`. -/
def docIdOf (d : Doc) : Str :=
  metaGetD d.metadata documentIdKey unknownStr

/-- Loop of `BaseAgent._extract_sources` (src/agents.py lines 80-94):
`seen` is the set of already-cited document ids; a chunk whose id was
seen is skipped, otherwise its citation is appended and its id recorded. -/
def extractSourcesAux (seen : List Str) : List Doc → List Citation
  | [] => []
  | d :: ds =>
    if docIdOf d ∈ seen then extractSourcesAux seen ds
    else citeOf d :: extractSourcesAux (docIdOf d :: seen) ds

/-- `BaseAgent._extract_sources` (src/agents.py lines 78-94). -/
def extractSources (docs : List Doc) : List Citation :=
  extractSourcesAux [] docs

/- ### Metadata extraction (src/ingest.py `DocumentIngestor._extract_metadata`) -/

/-- Python regex `\s` character class (`[ \t\n\r\f\v]` over ASCII inputs). -/
def isSpaceChar (c : Char) : Bool :=
  c = ' ' || c = '\t' || c = '\n' || c = '\r' || c = '\x0b' || c = '\x0c'

/-- Python regex `\w` character class over the ASCII inputs used here. -/
def isWordChar (c : Char) : Bool :=
  c.isAlphanum || c = '_'

/-- Character class `[\w-]` of the `Document ID` pattern. -/
def isIdChar (c : Char) : Bool :=
  isWordChar c || c = '-'

/-- Character class `[\d.]` of the `Version` pattern. -/
def isVerChar (c : Char) : Bool :=
  c.isDigit || c = '.'

/-- `re.search(label + r"\s*(...)", text)` scanning: try every position
left to right; at the first position where the literal label matches and
the group matcher `f` succeeds on the remainder, return the group. -/
def searchLabeled (label : Str) (f : Str → Option Str) : Str → Option Str
  | [] => none
  | c :: rest =>
    if label.isPrefixOf (c :: rest) then
      match f ((c :: rest).drop label.length) with
      | some tok => some tok
      | none => searchLabeled label f rest
    else searchLabeled label f rest

/-- Group matcher for `\s*([\w-]+)` and `\s*([\d.]+)`: the whitespace
run is consumed greedily; since the token class is disjoint from
whitespace, backtracking into the run can never help, so the match
succeeds iff a non-empty token run follows the maximal whitespace run. -/
def runTok (tokChar : Char → Bool) (rest : Str) : Option Str :=
  let t := (rest.dropWhile isSpaceChar).takeWhile tokChar
  if t = [] then none else some t

/-- Group matcher for `\s*(.+)`: greedy `\s*` first consumes the maximal
whitespace run; `.+` then needs at least one character other than `'\n'`.
If the text ends inside the whitespace run, the regex engine backtracks
`\s*` to the last whitespace character that is not `'\n'` and `.+`
matches exactly that character. -/
def titleTok (rest : Str) : Option Str :=
  let ws := rest.takeWhile isSpaceChar
  let tail := rest.drop ws.length
  match tail with
  | t :: ts => some ((t :: ts).takeWhile (fun c => c ≠ '\n'))
  | [] =>
    match ws.reverse.dropWhile (fun c => c = '\n') with
    | [] => none
    | c :: _ => some [c]

/-- Python `str.strip()`. -/
def strip (s : Str) : Str :=
  ((s.dropWhile isSpaceChar).reverse.dropWhile isSpaceChar).reverse

/-- Python `pat in s` substring containment. -/
def containsSubstr (hay pat : Str) : Bool :=
  if pat.isPrefixOf hay then true
  else
    match hay with
    | [] => false
    | _ :: rest => containsSubstr rest pat

/-- The metadata record built by `DocumentIngestor._extract_metadata`
(src/ingest.py lines 140-173): `source` and `filename` always present,
the three extracted fields present only when their pattern matched,
`doc_type` always present and derived from the identifier. -/
structure DocMeta where
  source : Str
  filename : Str
  document_id : Option Str
  title : Option Str
  version : Option Str
  doc_type : Str
  deriving DecidableEq, Repr

/-- `DocumentIngestor._extract_metadata` (src/ingest.py lines 140-173). -/
def extractMetadata (content source filename : Str) : DocMeta :=
  let did := searchLabeled "Document ID:".data (runTok isIdChar) content
  let ttl := (searchLabeled "Title:".data titleTok content).map strip
  let ver := searchLabeled "Version:".data (runTok isVerChar) content
  let idStr := did.getD []
  let dt :=
    if containsSubstr idStr "SOP".data then "Standard Operating Procedure".data
    else if containsSubstr idStr "WI".data then "Work Instruction".data
    else if containsSubstr idStr "QA".data then "Quality Assurance Document".data
    else genericDocStr
  { source := source
    filename := filename
    document_id := did
    title := ttl
    version := ver
    doc_type := dt }

/- ### Agent query operations (src/agents.py) -/

/-- Join a list of texts with a separator (Python `sep.join(parts)`). -/
def joinSep (sep : Str) : List Str → Str
  | [] => []
  | [x] => x
  | x :: y :: rest => x ++ sep ++ joinSep sep (y :: rest)

/-- One numbered context block of `BaseAgent._format_context`
(src/agents.py lines 64-74). -/
def contextBlock (i : Nat) (d : Doc) : Str :=
  "\n[Source ".data ++ (Nat.repr i).data ++ ": ".data
    ++ metaGetD d.metadata documentIdKey unknownStr ++ "]\n".data
    ++ metaGetD d.metadata titleKey unknownStr ++ "\n\n".data
    ++ d.pageContent ++ "\n\n---".data

/-- `BaseAgent._format_context` (src/agents.py lines 60-76): blocks are
numbered from 1 in retrieval order and joined with a newline. -/
def formatContext (docs : List Doc) : Str :=
  joinSep "\n".data (docs.enum.map fun p => contextBlock (p.1 + 1) p.2)

/-- The external chat-completion function (the Answerer's LLM call),
abstracted as a function of the assembled context and the question; the
prompt templates of src/prompts.py are fixed data wrapped around these
two inputs and are irrelevant to the claims below. -/
abbrev ChatFn := Str → Str → Str

/-- The fixed no-information answer of `SOPAgent.query`
(src/agents.py line 141). -/
def noSopInfoAnswer (q : Str) : Str :=
  "No relevant SOP information found for: ".data ++ q

/-- Result dict of `SOPAgent.query` (src/agents.py lines 152-156). -/
structure SopResult where
  answer : Str
  sources : List Citation
  chunks : Nat
  deriving DecidableEq, Repr

/-- One entry of the source list built inline by `HCAgent.query`
(src/agents.py lines 240-249); unlike `_extract_sources` it also
carries the chunk content. -/
structure HcSource where
  document_id : Str
  title : Str
  doc_type : Str
  filename : Str
  content : Str
  deriving DecidableEq, Repr

/-- Projection of one retrieved chunk used by `HCAgent.query`
(src/agents.py lines 241-247). -/
def hcSourceOf (d : Doc) : HcSource :=
  { document_id := metaGetD d.metadata documentIdKey unknownStr
    title := metaGetD d.metadata titleKey unknownStr
    doc_type := metaGetD d.metadata docTypeKey genericDocStr
    filename := metaGetD d.metadata filenameKey unknownStr
    content := d.pageContent }

/-- Result dict of `HCAgent.query` (src/agents.py lines 251-255). -/
structure HcResult where
  answer : Str
  sources : List HcSource
  chunks : Nat
  deriving DecidableEq, Repr

/-- `SOPAgent.query` (src/agents.py lines 123-156). The retrieval step
`similarity_search_with_score` is external; its result is the input
`docsWithScores`. The second component counts chat-completion calls.
If retrieval returned nothing the fixed result is returned and the LLM
is never invoked; otherwise the scores are stripped, the context is
assembled, the LLM is invoked once and the sources are extracted. -/
def sopQuery (question : Str) (docsWithScores : List (Doc × Int))
    (llm : ChatFn) : SopResult × Nat :=
  if docsWithScores = [] then
    ({ answer := noSopInfoAnswer question, sources := [], chunks := 0 }, 0)
  else
    let docs := docsWithScores.map Prod.fst
    ({ answer := llm (formatContext docs) question
       sources := extractSources docs
       chunks := docs.length }, 1)

/-- Body of `HCAgent.query` after the initialization guard
(src/agents.py lines 238-255). `self.qa_chain.invoke` is a langchain
`RetrievalQA` stuff chain: it retrieves (`retrieved` is that external
result), renders the retrieved chunks into the prompt and calls the
chat-completion function unconditionally — also when zero chunks were
retrieved (modelled from the library's stuff-documents chain, which has
no empty-context short-circuit). The source list is a direct per-chunk
projection, with no de-duplication. -/
def hcQueryRun (question : Str) (retrieved : List Doc)
    (llm : ChatFn) : HcResult × Nat :=
  let sources := retrieved.map hcSourceOf
  ({ answer := llm (joinSep "\n\n".data (retrieved.map Doc.pageContent)) question
     sources := sources
     chunks := sources.length }, 1)

/-- Typed view of the `ValueError` raised by `HCAgent.query`
(src/agents.py lines 230-231) — the spec's `NotInitializedError`. -/
inductive QueryError where
  | notInitialized
  deriving DecidableEq, Repr

/-- `HCAgent.query` (src/agents.py lines 228-255): raises when
`self.qa_chain` is not set, otherwise runs the chain. -/
def hcQuery (qaChainPresent : Bool) (question : Str) (retrieved : List Doc)
    (llm : ChatFn) : Except QueryError (HcResult × Nat) :=
  if qaChainPresent then .ok (hcQueryRun question retrieved llm)
  else .error .notInitialized

/- ### Index loading (src/agents.py, src/ingest.py) -/

/-- Outcome of attempting to load a persisted index from a path. -/
inductive LoadOutcome where
  | loaded
  | notFoundError
  | libraryFailure
  deriving DecidableEq, Repr

/-- Modelled from the spec: `FAISS.load_local` is the external
deserializer of §4.3 (the langchain/faiss library, not part of src/).
Loading a path that holds no persisted index cannot succeed, and any
failure it raises is the library's own runtime error, not the
`FileNotFoundError`/`NotFoundError` of the error taxonomy in §7. -/
def faissLoadLocal (pathExists : Bool) : LoadOutcome :=
  if pathExists then .loaded else .libraryFailure

/-- `SOPAgent._load_vectorstore` (src/agents.py lines 107-121):
explicit existence check raising `FileNotFoundError`, then delegation. -/
def sopLoadVectorstore (pathExists : Bool) : LoadOutcome :=
  if pathExists then faissLoadLocal pathExists else .notFoundError

/-- `HCAgent.load_vectorstore` (src/agents.py lines 186-206):
explicit existence check raising `FileNotFoundError`, then delegation. -/
def hcLoadVectorstore (pathExists : Bool) : LoadOutcome :=
  if pathExists then faissLoadLocal pathExists else .notFoundError

/-- `DocumentIngestor.load_vectorstore` (src/ingest.py lines 212-222):
no existence check at all — the call goes straight to the library. -/
def ingestorLoadVectorstore (pathExists : Bool) : LoadOutcome :=
  faissLoadLocal pathExists

/- ### Ingestion effect traces (src/ingest.py) -/

/-- The externally visible steps of the two ingestion entry points. -/
inductive IngestEffect where
  | loadDocs
  | chunkDocs
  | embedBuild
  | deleteIndexDir
  | saveIndex
  deriving DecidableEq, Repr

/-- Step trace of `DocumentIngestor.process_document`
(src/ingest.py lines 224-242): load, chunk, embed+build, save — there
is no deletion of the existing persisted index directory. -/
def processDocumentEffects : List IngestEffect :=
  [.loadDocs, .chunkDocs, .embedBuild, .saveIndex]

/-- Step trace of `DocumentIngestor.process_folder`
(src/ingest.py lines 244-283): load, (stop if no documents), chunk,
delete the old persisted index directory if it exists, embed+build,
save. -/
def processFolderEffects (docsFound indexDirExists : Bool) : List IngestEffect :=
  [.loadDocs] ++
    if docsFound then
      [.chunkDocs] ++ (if indexDirExists then [.deleteIndexDir] else [])
        ++ [.embedBuild, .saveIndex]
    else []

/- ### The HR upload endpoint as a state machine (src/api.py) -/

/-- In-memory state of the global `hc_agent` (src/agents.py `HCAgent`):
the loaded index (chunk ids, abstractly) and whether `qa_chain` is set.
The agent is Ready exactly when `qa_chain` is set. -/
structure Agent where
  vectorstore : Option (List Nat)
  qaChain : Bool
  deriving DecidableEq, Repr

/-- Whether an optional agent reference is Ready
(`hc_agent` set and initialized). -/
def agentReady : Option Agent → Bool
  | none => false
  | some a => a.qaChain

/-- State touched by the upload endpoint: the global `hc_agent`
reference, the persisted HC index on disk, and the saved upload files. -/
structure SysState where
  hcAgent : Option Agent
  diskIndex : Option (List Nat)
  uploadedFiles : List Str
  deriving DecidableEq, Repr

/-- The fallible steps of `upload_hc_document` and the
`process_document` call inside it, in execution order. `swapInit`
is `hc_agent.initialize()` — it runs only after the global reference
was already reassigned to a fresh agent. -/
inductive UploadStep where
  | saveFile
  | loadDoc
  | chunkDoc
  | embed
  | persist
  | swapInit
  deriving DecidableEq, Repr

/-- Endpoint outcome: HTTP 200 with the chunk count, HTTP 400, or the
HTTP 500 produced by the generic exception handler. -/
inductive Outcome where
  | success (chunksCreated : Nat)
  | clientError
  | serverError
  deriving DecidableEq, Repr

/-- Extension check of `upload_hc_document` (src/api.py line 181):
`file.filename.endswith(('.pdf', '.docx', '.doc'))`. -/
def allowedExt (filename : Str) : Bool :=
  ".pdf".data.isSuffixOf filename || ".docx".data.isSuffixOf filename
    || ".doc".data.isSuffixOf filename

/-- `upload_hc_document` (src/api.py lines 172-226) with
`DocumentIngestor.process_document` (src/ingest.py lines 224-242)
inlined. `newChunks` are the chunks the new document would produce;
`failAt` injects a failure (raised exception) at one step, which the
endpoint's `except` block turns into a 500. Mutations happen exactly
where the code performs them: the upload file is written before
processing, the persisted index is overwritten at the persist step
(a failing persist is modelled as leaving it unchanged), and the
global agent reference is replaced by a fresh uninitialized `HCAgent()`
before `initialize()` runs. -/
def uploadHcDocument (st : SysState) (filename : Str) (credsOk : Bool)
    (newChunks : List Nat) (failAt : Option UploadStep) : SysState × Outcome :=
  if ¬ allowedExt filename then (st, .clientError)
  else if ¬ credsOk then (st, .clientError)
  else if failAt = some .saveFile then (st, .serverError)
  else
    let st1 := { st with uploadedFiles := st.uploadedFiles ++ [filename] }
    if failAt = some .loadDoc then (st1, .serverError)
    else if failAt = some .chunkDoc then (st1, .serverError)
    else if failAt = some .embed then (st1, .serverError)
    else if failAt = some .persist then (st1, .serverError)
    else
      let st2 := { st1 with diskIndex := some newChunks }
      let st3 := { st2 with hcAgent := some { vectorstore := none, qaChain := false } }
      if failAt = some .swapInit then (st3, .serverError)
      else
        ({ st3 with
            hcAgent := some { vectorstore := st2.diskIndex, qaChain := true } },
          .success newChunks.length)

/- ### Ask endpoints (src/api.py) -/

/-- Response of an ask endpoint: an answer payload, the 400 raised when
the agent is missing, or the 500 of the generic handler. -/
inductive AskOutcome where
  | sopAnswer (r : SopResult)
  | hcAnswer (r : HcResult)
  | clientError
  | serverError
  deriving Repr

/-- `ask_sop_question` (src/api.py lines 139-167): 400 when the global
`sop_agent` is `None`, otherwise the agent's query result. A
constructed `SOPAgent` is always Ready (its constructor loads the
index or raises), so its presence is its readiness. -/
def askSopQuestion (sopAgentPresent : Bool) (question : Str)
    (docsWithScores : List (Doc × Int)) (llm : ChatFn) : AskOutcome :=
  if sopAgentPresent then .sopAnswer (sopQuery question docsWithScores llm).1
  else .clientError

/-- `ask_hc_question` (src/api.py lines 229-257): 400 when the global
`hc_agent` is `None`; a `ValueError` raised by an uninitialized agent's
`query` is caught by the generic handler and becomes a 500. -/
def askHcQuestion (hcAgent : Option Agent) (question : Str)
    (retrieved : List Doc) (llm : ChatFn) : AskOutcome :=
  match hcAgent with
  | none => .clientError
  | some a =>
    match hcQuery a.qaChain question retrieved llm with
    | .error _ => .serverError
    | .ok (r, _) => .hcAnswer r

/- ### The chunker

Modelled from the spec: the splitting algorithm itself lives in the
third-party `RecursiveCharacterTextSplitter` (langchain), not in src/;
src/ingest.py only configures it (chunk size, overlap, separator
priority lists, `length_function=len`). Following §4.2: split on the
first separator in priority order (the separator stays attached to the
piece it precedes, so pieces concatenate back to the text), recursively
re-split any oversized piece using the remaining separators, fall back
to raw character slicing for the empty-string separator, and merge
adjacent small pieces into chunks within the size budget, carrying up
to `chunkOverlap` characters of trailing context into the next chunk. -/

/-- Total length of a list of pieces. -/
def lensum (xs : List Str) : Nat := (xs.map List.length).sum

/-- First occurrence split: `some (before, after)` when the separator
occurs, where `before` is the text before the first occurrence and
`after` the text after it. Only used with a non-empty separator. -/
def breakAtSep (sep : Str) : Str → Option (Str × Str)
  | [] => none
  | c :: rest =>
    if sep.isPrefixOf (c :: rest) then some ([], (c :: rest).drop sep.length)
    else
      match breakAtSep sep rest with
      | none => none
      | some (b, a) => some (c :: b, a)

/-- Fuelled repeated split on a separator; the fuel `text.length + 1`
supplied by `splitParts` is always sufficient for a non-empty
separator, because `after` is strictly shorter than the text. -/
def splitPartsFuel (sep : Str) : Nat → Str → List Str
  | 0, text => [text]
  | fuel + 1, text =>
    match breakAtSep sep text with
    | none => [text]
    | some (b, a) => b :: splitPartsFuel sep fuel a

/-- All pieces of `text` between occurrences of `sep` (separator
removed). -/
def splitParts (sep text : Str) : List Str :=
  splitPartsFuel sep (text.length + 1) text

/-- Reattach the separator to the piece that follows it, so that the
pieces concatenate back to the original text (the splitter keeps
separators). -/
def attachSep (sep : Str) : List Str → List Str
  | [] => []
  | p :: ps => p :: ps.map (fun q => sep ++ q)

/-- One splitting pass: the empty separator slices into single
characters; a non-empty separator splits at each occurrence, keeps the
separator attached, and drops empty pieces. -/
def splitOnSep (sep text : Str) : List Str :=
  if sep = [] then text.map (fun ch => [ch])
  else (attachSep sep (splitParts sep text)).filter (fun p => p ≠ [])

/-- Drop pieces from the front of the pending chunk until the retained
total is within the overlap budget `O` and the next piece (of length
`dLen`) fits in the size budget `S`: the retained pieces become the
overlap carried into the next chunk. -/
def mergePop (O dLen S : Nat) : List Str → List Str
  | [] => []
  | p :: rest =>
    if lensum (p :: rest) > O ∨ (lensum (p :: rest) + dLen > S ∧ lensum (p :: rest) > 0) then
      mergePop O dLen S rest
    else p :: rest

/-- Greedy merge of small pieces into chunks of length at most `S`:
when the next piece would overflow the pending chunk, the pending chunk
is emitted and its tail (at most `O` characters) is retained as the
overlap prefix of the next chunk. -/
def mergeGo (S O : Nat) : List Str → List Str → List Str
  | cur, [] => if cur.flatten = [] then [] else [cur.flatten]
  | cur, d :: ds =>
    if lensum cur + d.length > S ∧ cur ≠ [] then
      (if cur.flatten = [] then [] else [cur.flatten])
        ++ mergeGo S O (mergePop O d.length S cur ++ [d]) ds
    else mergeGo S O (cur ++ [d]) ds

/-- Merge a run of within-budget pieces into chunks. -/
def mergeSplits (S O : Nat) (pieces : List Str) : List Str :=
  mergeGo S O [] pieces

/-- Walk the pieces of one splitting pass: pieces within the size
budget accumulate (in `goods`, reversed) and are merged; an oversized
piece flushes the accumulated run and is re-split with the remaining
separators via `recur`. -/
def processPieces (S O : Nat) (recur : Str → List Str) (goods : List Str) :
    List Str → List Str
  | [] => mergeSplits S O goods.reverse
  | p :: ps =>
    if p.length ≤ S then processPieces S O recur (p :: goods) ps
    else
      mergeSplits S O goods.reverse ++ recur p
        ++ processPieces S O recur [] ps

/-- Recursive splitting over the separator priority list; the fuel
(`seps.length` at the top call) makes the recursion structural. -/
def splitTextRec (S O : Nat) : Nat → List Str → Str → List Str
  | _, [], text => [text]
  | 0, _ :: _, text => [text]
  | fuel + 1, sep :: rest, text =>
    processPieces S O (splitTextRec S O fuel rest) [] (splitOnSep sep text)

/-- The chunker: split `text` into chunks of length at most `S` (when
achievable) with up to `O` characters of carried overlap, using the
separator priority list `seps`. -/
def chunkText (S O : Nat) (seps : List Str) (text : Str) : List Str :=
  splitTextRec S O seps.length seps text

/-- The heavy section-rule delimiter heading the SOP separator list
(src/ingest.py line 60): a newline, an 80-character rule of equals
signs, and a newline. -/
def sopRuleSep : Str :=
  '\n' :: (List.replicate 80 '=' ++ ['\n'])

/-- The structured-document separator profile configured for the SOP
ingestor (src/ingest.py lines 59-67). -/
def sopSeparators : List Str :=
  [sopRuleSep, "\n## ".data, "\n### ".data, "\n\n".data, "\n".data, " ".data, []]

/-- The prose separator profile configured for the HC ingestor
(src/ingest.py line 69). -/
def hcSeparators : List Str :=
  ["\n\n".data, "\n".data, ". ".data, " ".data, []]

/-- `k`-character shared affix: the last `k` characters of `c1` equal
the first `k` characters of `c2`. -/
def sharedAffix (k : Nat) (c1 c2 : Str) : Bool :=
  c1.drop (c1.length - k) = c2.take k

/- ### Concrete sample chunks used in counterexamples and witnesses -/

/-- A chunk of document `A`. -/
def docA1 : Doc :=
  { pageContent := "alpha one".data
    metadata := [(documentIdKey, "A".data), (titleKey, "Doc A".data),
                 (filenameKey, "a.md".data)] }

/-- A second, different chunk of the same document `A`. -/
def docA2 : Doc :=
  { pageContent := "alpha two".data
    metadata := [(documentIdKey, "A".data), (titleKey, "Doc A".data),
                 (filenameKey, "a.md".data)] }

/-- A chunk of document `B`. -/
def docB : Doc :=
  { pageContent := "beta".data
    metadata := [(documentIdKey, "B".data), (titleKey, "Doc B".data),
                 (filenameKey, "b.md".data)] }

/-- A chunk of a first document that carries no `document_id`. -/
def docNo1 : Doc :=
  { pageContent := "gamma".data
    metadata := [(titleKey, "First untagged".data), (filenameKey, "g.pdf".data)] }

/-- A chunk of a second, distinct document that carries no
`document_id`. -/
def docNo2 : Doc :=
  { pageContent := "delta".data
    metadata := [(titleKey, "Second untagged".data), (filenameKey, "d.pdf".data)] }

/-- A system state whose HC agent is Ready on index `[1]`. -/
def readyState : SysState :=
  { hcAgent := some { vectorstore := some [1], qaChain := true }
    diskIndex := some [1]
    uploadedFiles := [] }

/-- A system state with no agent and no persisted index. -/
def emptyState : SysState :=
  { hcAgent := none, diskIndex := none, uploadedFiles := [] }

/-- A system state with no agent but a stale persisted index `[9]`. -/
def staleState : SysState :=
  { hcAgent := none, diskIndex := some [9], uploadedFiles := [] }

/- ## Helper lemmas -/

theorem extractSourcesAux_allSeen (seen : List Str) (ds : List Doc)
    (h : ∀ d ∈ ds, docIdOf d ∈ seen) : extractSourcesAux seen ds = [] := by
  induction ds with
  | nil => rfl
  | cons d ds ih =>
    simp only [extractSourcesAux, if_pos (h d (by simp))]
    exact ih fun d' hd' => h d' (by simp [hd'])

theorem extractSourcesAux_ids_nodup (docs : List Doc) :
    ∀ seen, ((extractSourcesAux seen docs).map Citation.document_id).Nodup
      ∧ ∀ i ∈ (extractSourcesAux seen docs).map Citation.document_id, i ∉ seen := by
  induction docs with
  | nil => intro seen; simp [extractSourcesAux]
  | cons d ds ih =>
    intro seen
    by_cases h : docIdOf d ∈ seen
    · simpa only [extractSourcesAux, if_pos h] using ih seen
    · simp only [extractSourcesAux, if_neg h, List.map_cons]
      obtain ⟨hnd, hdisj⟩ := ih (docIdOf d :: seen)
      have hcite : (citeOf d).document_id = docIdOf d := rfl
      refine ⟨?_, ?_⟩
      · rw [List.nodup_cons, hcite]
        exact ⟨fun hmem => (hdisj _ hmem) (by simp), hnd⟩
      · intro i hi
        rcases List.mem_cons.mp hi with hi1 | hi2
        · rw [hi1, hcite]; exact h
        · exact fun hmem => (hdisj _ hi2) (List.mem_cons_of_mem _ hmem)

/- ## Claims -/

/-- C8 (confirmed): on text containing `Document ID: SOP-042` and
`Title: Vial Capping`, metadata extraction yields identifier "SOP-042",
category "Standard Operating Procedure" and title "Vial Capping"; on
text containing none of the labeled fields, the identifier, title and
version keys are absent from the resulting mapping (`none`, not empty
strings), for any source path and filename. -/
theorem C8_metadata_extraction (src fn : Str) :
    ((extractMetadata "Document ID: SOP-042\nTitle: Vial Capping".data src fn).document_id
        = some "SOP-042".data
      ∧ (extractMetadata "Document ID: SOP-042\nTitle: Vial Capping".data src fn).doc_type
          = "Standard Operating Procedure".data
      ∧ (extractMetadata "Document ID: SOP-042\nTitle: Vial Capping".data src fn).title
          = some "Vial Capping".data)
    ∧ ((extractMetadata "hello world\nnothing here".data src fn).document_id = none
      ∧ (extractMetadata "hello world\nnothing here".data src fn).title = none
      ∧ (extractMetadata "hello world\nnothing here".data src fn).version = none) :=
  ⟨⟨rfl, rfl, rfl⟩, ⟨rfl, rfl, rfl⟩⟩

/-- C10 (confirmed): retrieved chunks that all lack a document
identifier in their metadata all receive the default identifier
"Unknown", hence collapse into a single citation entry carrying the
title, type and filename of only the first such chunk. -/
theorem C10_unknown_ids_collapse (d : Doc) (ds : List Doc)
    (hd : metaLookup d.metadata documentIdKey = none)
    (hds : ∀ d' ∈ ds, metaLookup d'.metadata documentIdKey = none) :
    extractSources (d :: ds) = [citeOf d]
      ∧ (citeOf d).document_id = unknownStr := by
  have hid : ∀ d' : Doc, metaLookup d'.metadata documentIdKey = none →
      docIdOf d' = unknownStr := by
    intro d' h'; simp [docIdOf, metaGetD, h']
  refine ⟨?_, by simp [citeOf, metaGetD, hd]⟩
  have h1 : extractSources (d :: ds)
      = citeOf d :: extractSourcesAux [docIdOf d] ds := by
    simp [extractSources, extractSourcesAux]
  rw [h1, extractSourcesAux_allSeen]
  intro d' hd'
  rw [hid d' (hds d' hd'), ← hid d hd]
  simp

/-- C10 witness: two distinct untagged documents yield one citation,
that of the first, with identifier "Unknown". -/
theorem C10_witness :
    extractSources [docNo1, docNo2] = [citeOf docNo1]
      ∧ (citeOf docNo1).document_id = unknownStr :=
  C10_unknown_ids_collapse docNo1 [docNo2] (by decide) (by decide)

/-- C2 counterexample: the claim says the source citation list returned
alongside a query answer is de-duplicated by document identifier, but
`HCAgent.query` returns one source entry per retrieved chunk with no
de-duplication: two chunks of the same document `A` yield a source list
whose identifiers are `[A, A]` — not duplicate-free. -/
theorem C2_counterexample :
    ((hcQueryRun [] [docA1, docA2] (fun _ _ => [])).1.sources.map HcSource.document_id
        = ["A".data, "A".data])
      ∧ ¬ ((hcQueryRun [] [docA1, docA2] (fun _ _ => [])).1.sources.map
            HcSource.document_id).Nodup := by
  decide

/-- C2 (corrected): `_extract_sources` — used by the SOP query — is
de-duplicated by document identifier with the first occurrence winning
and first-seen order preserved (chunks from documents [A, B, A] yield
citations [A, B]); it is idempotent on the same chunk sequence and its
result never repeats an identifier, and the SOP query returns exactly
this list. The HC query's source list, however, is a direct per-chunk
projection with no de-duplication. -/
theorem C2_amended :
    (∀ d1 d2 d3 : Doc, docIdOf d1 ≠ docIdOf d2 → docIdOf d3 = docIdOf d1 →
        extractSources [d1, d2, d3] = [citeOf d1, citeOf d2])
      ∧ (∀ docs : List Doc, extractSources docs = extractSources docs)
      ∧ (∀ docs : List Doc, ((extractSources docs).map Citation.document_id).Nodup)
      ∧ (∀ q dws llm, dws ≠ [] →
          (sopQuery q dws llm).1.sources = extractSources (dws.map Prod.fst))
      ∧ (∀ q docs llm, (hcQueryRun q docs llm).1.sources = docs.map hcSourceOf) := by
  refine ⟨?_, fun _ => rfl, ?_, ?_, fun _ _ _ => rfl⟩
  · intro d1 d2 d3 h12 h31
    simp [extractSources, extractSourcesAux, (Ne.symm h12 : docIdOf d2 ≠ docIdOf d1), h31,
      extractSourcesAux_allSeen]
  · intro docs
    exact (extractSourcesAux_ids_nodup docs []).1
  · intro q dws llm h
    simp [sopQuery, h]

/-- C2 witness: chunks from documents [A, B, A] yield citations
[A, B]. -/
theorem C2_witness :
    extractSources [docA1, docB, docA2] = [citeOf docA1, citeOf docB] :=
  C2_amended.1 docA1 docB docA2 (by decide) (by decide)

/-- C1 counterexample: the claim says every Ready agent's query
short-circuits when retrieval returns zero chunks, without invoking the
chat-completion function — but the HC agent's query invokes the
RetrievalQA chain (one chat-completion call) even when zero chunks are
retrieved, instead of returning the fixed no-information result without
an LLM call. -/
theorem C1_counterexample :
    (hcQueryRun [] [] (fun _ _ => [])).2 = 1
      ∧ (hcQueryRun [] [] (fun _ _ => [])).1.chunks = 0 := by
  decide

/-- C1 (corrected): for the SOP agent the claim holds — zero retrieved
chunks yield the fixed no-information result with empty sources and
chunk count 0 and no chat-completion call, and otherwise the result's
chunk count equals the number of retrieved chunks with exactly one
chat-completion call. The HC agent does not short-circuit: its query
always makes exactly one chat-completion call (also on zero chunks)
and returns a chunk count equal to the number of retrieved chunks. -/
theorem C1_amended :
    (∀ q llm, sopQuery q [] llm
        = ({ answer := noSopInfoAnswer q, sources := [], chunks := 0 }, 0))
      ∧ (∀ q dws llm, dws ≠ [] →
          (sopQuery q dws llm).1.chunks = dws.length ∧ (sopQuery q dws llm).2 = 1)
      ∧ (∀ q docs llm,
          (hcQueryRun q docs llm).1.chunks = docs.length
            ∧ (hcQueryRun q docs llm).2 = 1) := by
  refine ⟨fun q llm => rfl, ?_, ?_⟩
  · intro q dws llm h
    constructor <;> simp [sopQuery, h]
  · intro q docs llm
    constructor <;> simp [hcQueryRun]

/-- C1 witness: one retrieved chunk gives chunk count 1 and one
chat-completion call for the SOP agent. -/
theorem C1_witness :
    (sopQuery [] [(docA1, 0)] (fun _ _ => [])).1.chunks = 1
      ∧ (sopQuery [] [(docA1, 0)] (fun _ _ => [])).2 = 1 :=
  C1_amended.2.1 [] [(docA1, 0)] (fun _ _ => []) (by decide)

/-- C7 (confirmed): querying a NotReady agent is an error, not a silent
no-op: `HCAgent.query` raises the not-initialized error whenever
`qa_chain` is unset; the HC ask endpoint returns a client error when no
agent exists and a server error when the agent exists uninitialized
(the raised `ValueError` propagates); the SOP ask endpoint returns a
client error when no agent exists. -/
theorem C7_notready_query_is_error :
    (∀ q docs llm, hcQuery false q docs llm = .error .notInitialized)
      ∧ (∀ q docs llm, askHcQuestion none q docs llm = .clientError)
      ∧ (∀ v q docs llm,
          askHcQuestion (some { vectorstore := v, qaChain := false }) q docs llm
            = .serverError)
      ∧ (∀ q dws llm, askSopQuestion false q dws llm = .clientError) :=
  ⟨fun _ _ _ => rfl, fun _ _ _ => rfl, fun _ _ _ _ => rfl, fun _ _ _ => rfl⟩

/-- C6 counterexample: `DocumentIngestor.load_vectorstore` on a
non-existent path does not fail with the typed not-found error — it
performs no existence check and surfaces the library's own failure. -/
theorem C6_counterexample :
    ingestorLoadVectorstore false = .libraryFailure
      ∧ ingestorLoadVectorstore false ≠ .notFoundError := by
  decide

/-- C6 (corrected): the two agent loaders (`SOPAgent._load_vectorstore`
and `HCAgent.load_vectorstore`) fail with the typed not-found error on
a non-existent path, but `DocumentIngestor.load_vectorstore` performs
no existence check and delegates directly to the library, so a missing
path surfaces as the library's untyped failure instead. -/
theorem C6_amended :
    sopLoadVectorstore false = .notFoundError
      ∧ hcLoadVectorstore false = .notFoundError
      ∧ ingestorLoadVectorstore false = .libraryFailure := by
  decide

/-- C4 counterexample: the upload path runs
`DocumentIngestor.process_document`, whose step trace contains no
deletion of the existing persisted index directory — the
delete-before-rebuild step the claim requires does not occur on
upload. -/
theorem C4_counterexample :
    processDocumentEffects.contains IngestEffect.deleteIndexDir = false := by
  decide

/-- C4 (corrected): on upload the persisted index is fully replaced —
the new index is built from the new document's chunks alone and
overwrites the persisted index at the same path, with no partial
update and no incremental merge — but the existing persisted index
directory is not deleted first: `process_document` has no deletion
step; the delete-before-rebuild step exists only in the folder
ingestion path `process_folder`. -/
theorem C4_amended :
    processDocumentEffects
        = [.loadDocs, .chunkDocs, .embedBuild, .saveIndex]
      ∧ IngestEffect.deleteIndexDir ∉ processDocumentEffects
      ∧ (∀ st fn chunks, allowedExt fn = true →
          uploadHcDocument st fn true chunks none
            = ({ hcAgent := some { vectorstore := some chunks, qaChain := true },
                 diskIndex := some chunks,
                 uploadedFiles := st.uploadedFiles ++ [fn] }, .success chunks.length))
      ∧ processFolderEffects true true
          = [.loadDocs, .chunkDocs, .deleteIndexDir, .embedBuild, .saveIndex] := by
  refine ⟨rfl, by decide, ?_, rfl⟩
  intro st fn chunks h
  simp [uploadHcDocument, h]

/-- C4 witness: a successful upload of one PDF replaces the persisted
index with the new document's chunks, whatever was stored before. -/
theorem C4_witness :
    uploadHcDocument staleState "a.pdf".data true [5] none
      = ({ hcAgent := some { vectorstore := some [5], qaChain := true }
           diskIndex := some [5]
           uploadedFiles := ["a.pdf".data] }, .success 1) :=
  C4_amended.2.2.1 staleState "a.pdf".data [5] (by decide)

/-- C5 counterexample: the rebuild is not all-or-nothing — the upload
endpoint reassigns the global agent reference to a fresh uninitialized
`HCAgent()` before calling `initialize()`, so a failure during the
swap's initialize step leaves the agent NotReady although it was Ready
before the upload. -/
theorem C5_counterexample :
    agentReady readyState.hcAgent = true
      ∧ agentReady (uploadHcDocument readyState
          "b.pdf".data true [2] (some .swapInit)).1.hcAgent = false := by
  decide

/-- C5 (corrected): a failure in any step up to and including the
embedding step (file save, document load, chunking, or an
embedding-function failure mid-rebuild) leaves the agent's prior
Ready/NotReady state and its previously loaded index unchanged and
queryable, and leaves the persisted index untouched. The sequence is
not all-or-nothing beyond that point: the swap itself is non-atomic,
and a failure during the swap's initialize step leaves the agent
NotReady regardless of its prior state. -/
theorem C5_amended :
    (∀ st fn chunks step,
        step = UploadStep.saveFile ∨ step = UploadStep.loadDoc
          ∨ step = UploadStep.chunkDoc ∨ step = UploadStep.embed →
        (uploadHcDocument st fn true chunks (some step)).1.hcAgent = st.hcAgent
          ∧ (uploadHcDocument st fn true chunks (some step)).1.diskIndex = st.diskIndex)
      ∧ (∀ st fn chunks, allowedExt fn = true →
          agentReady (uploadHcDocument st fn true chunks (some .swapInit)).1.hcAgent
            = false) := by
  constructor
  · intro st fn chunks step hstep
    by_cases hext : allowedExt fn = true
    · rcases hstep with h | h | h | h <;> subst h <;>
        constructor <;> simp [uploadHcDocument, hext]
    · constructor <;> simp [uploadHcDocument, hext]
  · intro st fn chunks hext
    simp [uploadHcDocument, hext, agentReady]

/-- C5 witness: an embedding failure during the upload of a PDF leaves
a previously Ready agent and the persisted index exactly as they
were. -/
theorem C5_witness :
    (uploadHcDocument readyState "b.pdf".data true [2] (some .embed)).1.hcAgent
        = readyState.hcAgent
      ∧ (uploadHcDocument readyState "b.pdf".data true [2] (some .embed)).1.diskIndex
        = readyState.diskIndex :=
  C5_amended.1 readyState "b.pdf".data [2] .embed (by simp)

/-- C9 (confirmed): an upload whose filename does not end in `.pdf`,
`.docx` or `.doc` is rejected with a client-facing error before any
processing: the returned state is exactly the incoming state — the
file is not persisted, nothing is chunked or embedded, the persisted
index and the agent are untouched. -/
theorem C9_upload_rejects_bad_extension (st : SysState) (fn : Str) (creds : Bool)
    (chunks : List Nat) (failAt : Option UploadStep)
    (h : allowedExt fn = false) :
    uploadHcDocument st fn creds chunks failAt = (st, .clientError) := by
  simp [uploadHcDocument, h]

/-- C9 witness: uploading `evil.txt` changes nothing and yields the
client error. -/
theorem C9_witness :
    uploadHcDocument emptyState "evil.txt".data true [1] none
      = (emptyState, .clientError) :=
  C9_upload_rejects_bad_extension emptyState "evil.txt".data true [1] none (by decide)

/- ## Chunker lemmas (for C3) -/

theorem lensum_nil : lensum [] = 0 := rfl

theorem lensum_cons (p : Str) (ps : List Str) :
    lensum (p :: ps) = p.length + lensum ps := by
  simp [lensum]

theorem lensum_append (a b : List Str) :
    lensum (a ++ b) = lensum a + lensum b := by
  simp [lensum]

theorem length_flatten_eq_lensum (xs : List Str) :
    xs.flatten.length = lensum xs := by
  simp [lensum]

/-- After the pop loop, the retained pieces fit in the overlap budget
and either leave room for the next piece or are empty. -/
theorem mergePop_spec (O dLen S : Nat) (cur : List Str) :
    lensum (mergePop O dLen S cur) ≤ O
      ∧ (lensum (mergePop O dLen S cur) + dLen ≤ S
          ∨ lensum (mergePop O dLen S cur) = 0) := by
  induction cur with
  | nil => simp [mergePop, lensum]
  | cons p rest ih =>
    by_cases h : lensum (p :: rest) > O
        ∨ (lensum (p :: rest) + dLen > S ∧ lensum (p :: rest) > 0)
    · simpa [mergePop, h] using ih
    · simp only [mergePop, if_neg h]
      omega

/-- Invariant of the merge loop: if every incoming piece fits in the
size budget and the pending chunk's total fits, every emitted chunk
fits. -/
theorem mergeGo_length_le (S O : Nat) (ds : List Str) :
    ∀ cur, (∀ d ∈ ds, d.length ≤ S) → lensum cur ≤ S →
      ∀ c ∈ mergeGo S O cur ds, c.length ≤ S := by
  induction ds with
  | nil =>
    intro cur _ hcur c hc
    by_cases h : cur.flatten = [] <;> simp [mergeGo, h] at hc
    rw [hc, length_flatten_eq_lensum]
    exact hcur
  | cons d ds ih =>
    intro cur hds hcur c hc
    have hd : d.length ≤ S := hds d (by simp)
    have hds' : ∀ d' ∈ ds, d'.length ≤ S := fun d' h' => hds d' (by simp [h'])
    by_cases hb : lensum cur + d.length > S ∧ cur ≠ []
    · rw [mergeGo, if_pos hb] at hc
      rcases List.mem_append.mp hc with hc1 | hc2
      · by_cases hfl : cur.flatten = [] <;> simp [hfl] at hc1
        rw [hc1, length_flatten_eq_lensum]
        exact hcur
      · refine ih _ hds' ?_ c hc2
        have hpop := mergePop_spec O d.length S cur
        simp only [lensum_append, lensum_cons, lensum_nil]
        omega
    · rw [mergeGo, if_neg hb] at hc
      refine ih _ hds' ?_ c hc
      simp only [lensum_append, lensum_cons, lensum_nil]
      rcases not_and_or.mp hb with h1 | h2
      · omega
      · have hcur0 : cur = [] := not_not.mp h2
        subst hcur0
        simp only [lensum_nil]
        omega

/-- Chunks produced by merging within-budget pieces fit in the size
budget. -/
theorem mergeSplits_length_le (S O : Nat) (pieces : List Str)
    (h : ∀ p ∈ pieces, p.length ≤ S) :
    ∀ c ∈ mergeSplits S O pieces, c.length ≤ S :=
  mergeGo_length_le S O pieces [] h (by simp [lensum])

/-- Walking one splitting pass preserves the size bound, provided the
recursive re-split of every oversized piece does. -/
theorem processPieces_length_le (S O : Nat) (recur : Str → List Str) :
    ∀ (ps goods : List Str),
      (∀ p ∈ ps, S < p.length → ∀ c ∈ recur p, c.length ≤ S) →
      (∀ g ∈ goods, g.length ≤ S) →
      ∀ c ∈ processPieces S O recur goods ps, c.length ≤ S := by
  intro ps
  induction ps with
  | nil =>
    intro goods _ hg c hc
    rw [processPieces] at hc
    exact mergeSplits_length_le S O goods.reverse
      (fun g h => hg g (List.mem_reverse.mp h)) c hc
  | cons p ps ih =>
    intro goods hrec hg c hc
    have hrec' : ∀ p' ∈ ps, S < p'.length → ∀ c ∈ recur p', c.length ≤ S :=
      fun p' h' => hrec p' (by simp [h'])
    by_cases hp : p.length ≤ S
    · rw [processPieces, if_pos hp] at hc
      refine ih (p :: goods) hrec' ?_ c hc
      intro g hgm
      rcases List.mem_cons.mp hgm with h1 | h2
      · rw [h1]; exact hp
      · exact hg g h2
    · rw [processPieces, if_neg hp] at hc
      rcases List.mem_append.mp hc with hc' | hc2
      · rcases List.mem_append.mp hc' with hc0 | hc1
        · exact mergeSplits_length_le S O goods.reverse
            (fun g h => hg g (List.mem_reverse.mp h)) c hc0
        · exact hrec p (by simp) (Nat.lt_of_not_le hp) c hc1
      · exact ih [] hrec' (by simp) c hc2

/-- Every piece of the character-slicing pass is a single character. -/
theorem splitOnSep_empty_sep (text : Str) :
    ∀ p ∈ splitOnSep [] text, p.length = 1 := by
  intro p hp
  simp only [splitOnSep, if_pos rfl] at hp
  obtain ⟨ch, _, hch⟩ := List.mem_map.mp hp
  rw [← hch]
  rfl

theorem getLast?_cons_of_ne_nil {α : Type} (a : α) (l : List α) (h : l ≠ []) :
    (a :: l).getLast? = l.getLast? := by
  cases l with
  | nil => exact absurd rfl h
  | cons b m => exact List.getLast?_cons_cons

/-- Size bound through the whole recursive splitter: if the separator
priority list ends with the empty-string fallback and the size budget
is at least one character, every produced chunk fits the budget. -/
theorem splitTextRec_length_le (S O : Nat) (hS : 1 ≤ S) :
    ∀ fuel seps text, seps.length ≤ fuel → seps.getLast? = some [] →
      ∀ c ∈ splitTextRec S O fuel seps text, c.length ≤ S := by
  intro fuel
  induction fuel with
  | zero =>
    intro seps text hlen hlast
    cases seps with
    | nil => simp at hlast
    | cons s rest => simp at hlen
  | succ fuel ih =>
    intro seps text hlen hlast
    cases seps with
    | nil => simp at hlast
    | cons sep rest =>
      rw [splitTextRec]
      by_cases hsep : sep = []
      · subst hsep
        apply processPieces_length_le
        · intro p hp hlong c hc
          have := splitOnSep_empty_sep text p hp
          omega
        · intro g hg
          simp at hg
      · have hrest : rest ≠ [] := by
          intro hnil
          subst hnil
          simp [List.getLast?] at hlast
          exact hsep hlast
        have hlast' : rest.getLast? = some [] := by
          rw [getLast?_cons_of_ne_nil sep rest hrest] at hlast
          exact hlast
        apply processPieces_length_le
        · intro p _ _ c hc
          exact ih rest p (by simpa using Nat.le_of_succ_le_succ hlen) hlast' c hc
        · intro g hg
          simp at hg

/-- Size bound for the configured chunker. -/
theorem chunkText_length_le (S O : Nat) (seps : List Str) (text : Str)
    (hS : 1 ≤ S) (hlast : seps.getLast? = some []) :
    ∀ c ∈ chunkText S O seps text, c.length ≤ S :=
  splitTextRec_length_le S O hS seps.length seps text le_rfl hlast

/-- C3 counterexample: with the HC separator profile, chunk size 4 and
overlap 1 (so 0 ≤ O < S as the claim requires), the text
`ab cd ef gh` is chunked into adjacent chunks `ab` and ` cd`. The only
overlap length the claim allows is k = 1 (non-empty, ≤ O), and the
1-character shared suffix/prefix test fails — adjacent chunks from the
same document need not share a non-empty overlap. -/
theorem C3_counterexample :
    chunkText 4 1 hcSeparators "ab cd ef gh".data
        = ["ab".data, " cd".data, " ef".data, " gh".data]
      ∧ sharedAffix 1 "ab".data " cd".data = false := by
  decide

/-- C3 (corrected): for every chunk size S ≥ 1 and every overlap O,
every chunk produced by the chunker with either configured separator
profile has length ≤ S — the empty-string fallback separator means a
chunk can always be split smaller, so the claim's exception never
arises — and adjacent chunks share an overlapping suffix/prefix of
length ≤ O that may be empty (it is always empty when O = 0, and empty
whenever no trailing pieces fit the overlap budget). -/
theorem C3_amended (S O : Nat) (text : Str) (hS : 1 ≤ S) :
    (∀ c ∈ chunkText S O sopSeparators text, c.length ≤ S)
      ∧ (∀ c ∈ chunkText S O hcSeparators text, c.length ≤ S)
      ∧ (∀ i c1 c2, (chunkText S O hcSeparators text).get? i = some c1 →
          (chunkText S O hcSeparators text).get? (i + 1) = some c2 →
          ∃ k, k ≤ O ∧ sharedAffix k c1 c2 = true) := by
  refine ⟨chunkText_length_le S O sopSeparators text hS (by decide),
    chunkText_length_le S O hcSeparators text hS (by decide), ?_⟩
  intro i c1 c2 h1 h2
  refine ⟨0, Nat.zero_le _, ?_⟩
  simp [sharedAffix]

/-- C3 witness: with size 2 and overlap 0 the HC-profile chunker cuts
`abcd` into `ab` and `cd`; the chunk `ab` respects the bound. -/
theorem C3_witness : ('a' :: 'b' :: []).length ≤ 2 :=
  (C3_amended 2 0 "abcd".data (by decide)).2.1 ('a' :: 'b' :: []) (by decide)

end HRSop
